import Mathlib

/-!
# Verification of `logging.go` (package `logging`)

A shallow embedding of the configuration factory of the package: the
configuration structures, `DefaultConfig`, the caller-annotation closure that
`New` installs, and `New` itself.

Conventions of the embedding

* A Go `string` is a Lean `String`; the helpers work on its list of characters.
  The only separators the code looks for are `.` and `/`, both one byte in
  UTF-8, so splitting on characters and splitting on bytes agree.
* A Go `int` is an `Int` (no arithmetic is done on the configuration numbers).
* A Go pointer that may be nil is an `Option`; dereferencing goes through
  `deref`, which fails with `Panic.nilDereference` on `none`.
* A Go slice is `Slice α = Option (List α)`: `none` is the nil slice, `some l`
  a non-nil slice with elements `l`.
* A function that can panic returns `Except Panic _`.
* The three libraries the package calls (`logrus`, `nested-logrus-formatter`,
  `lumberjack`) and the standard-library functions `strings.Split`,
  `path.Base`, `fmt.Sprintf` are modelled by the part of their behaviour the
  package relies on; each model says what it covers.
-/

set_option linter.dupNamespace false

namespace Logging

/-! ## Go runtime -/

/-- Run-time panics the package can raise. -/
inductive Panic where
  | nilDereference
  | indexOutOfRange
  deriving DecidableEq, Repr

/-- Go slice: `none` is the nil slice, `some l` a non-nil slice holding `l`. -/
abbrev Slice (α : Type) := Option (List α)

/-- Dereference of a pointer, `*p` or `p.field`. -/
def deref {α : Type} (p : Option α) : Except Panic α :=
  match p with
  | some v => .ok v
  | none => .error .nilDereference

/-- Index expression `xs[i]` on the elements of a slice, with Go's bounds check. -/
def index {α : Type} (xs : List α) (i : Int) : Except Panic α :=
  if i < 0 then .error .indexOutOfRange
  else
    match xs.get? i.toNat with
    | some x => .ok x
    | none => .error .indexOutOfRange

/-- Index expression `s[i]` on a slice value; the nil slice has length 0. -/
def Slice.index {α : Type} (s : Slice α) (i : Int) : Except Panic α :=
  match s with
  | none => .error .indexOutOfRange
  | some xs => Logging.index xs i

/-! ## Standard library: `strings`, `path`, `fmt` -/

/-- Segments of `s` between occurrences of the one-character separator `sep`:
the behaviour of `strings.Split(s, sep)` for a separator of length one.  The
result has one more element than `s` has separators (so it is never empty). -/
def splitChars (sep : Char) : List Char → List (List Char)
  | [] => [[]]
  | c :: cs =>
    if c = sep then [] :: splitChars sep cs
    else
      match splitChars sep cs with
      | [] => [[c]]
      | seg :: segs => (c :: seg) :: segs

/-- Model of `strings.Split(s, sep)` where `sep` is a one-character string. -/
def strings.Split (s : String) (sep : Char) : List String :=
  (splitChars sep s.data).map String.mk

/-- Model of `strings.LastIndexByte(s, c)`: index of the last `c`, or `-1`. -/
def strings.LastIndexByte : List Char → Char → Int
  | [], _ => -1
  | x :: xs, c =>
    let r := strings.LastIndexByte xs c
    if 0 ≤ r then r + 1 else if x = c then 0 else -1

/-- The loop `for len(path) > 0 && path[len(path)-1] == '/' { path = path[0:len(path)-1] }`
of `path.Base`, with the number of remaining iterations as fuel. -/
def stripTrailingSlashes : Nat → List Char → List Char
  | 0, p => p
  | n + 1, p =>
    if p.getLast? = some '/' then stripTrailingSlashes n p.dropLast else p

/-- Model of `path.Base`: the last element of a slash-separated path. -/
def path.Base (path : String) : String :=
  if path = "" then "."
  else
    let p := stripTrailingSlashes path.data.length path.data
    let i := strings.LastIndexByte p '/'
    let p := if 0 ≤ i then p.drop (i + 1).toNat else p
    if p = [] then "/" else String.mk p

/-- Operand of `fmt.Sprintf`. -/
inductive fmt.Arg where
  | str (s : String)
  | int (n : Int)

/-- Expansion of a format over its operands, for the verbs `%s` (on a string)
and `%d` (on an int); every other character is copied. -/
def fmt.expand : List Char → List fmt.Arg → List Char
  | [], _ => []
  | [c], _ => [c]
  | c :: v :: rest, args =>
    if c = '%' ∧ v = 's' then
      match args with
      | fmt.Arg.str s :: args' => s.data ++ fmt.expand rest args'
      | _ => c :: fmt.expand (v :: rest) args
    else if c = '%' ∧ v = 'd' then
      match args with
      | fmt.Arg.int n :: args' => (toString n).data ++ fmt.expand rest args'
      | _ => c :: fmt.expand (v :: rest) args
    else c :: fmt.expand (v :: rest) args

/-- Model of `fmt.Sprintf` for formats that use `%s` and `%d` only. -/
def fmt.Sprintf (format : String) (args : List fmt.Arg) : String :=
  String.mk (fmt.expand format.data args)

/-- Call-site descriptor `runtime.Frame` (the fields the package reads). -/
structure runtime.Frame where
  File : String
  Line : Int
  Function : String

/-! ## Library `logrus`: levels -/

/-- Severity `logrus.Level`. -/
inductive logrus.Level where
  | PanicLevel
  | FatalLevel
  | ErrorLevel
  | WarnLevel
  | InfoLevel
  | DebugLevel
  | TraceLevel
  deriving DecidableEq, Repr

/-- Numeric value of a level (`PanicLevel Level = iota`, and so on). -/
def logrus.Level.val : logrus.Level → Nat
  | .PanicLevel => 0
  | .FatalLevel => 1
  | .ErrorLevel => 2
  | .WarnLevel => 3
  | .InfoLevel => 4
  | .DebugLevel => 5
  | .TraceLevel => 6

/-- Lower-casing of one rune as far as it matters for a comparison with an
ASCII word: `A`-`Z`, and the two non-ASCII runes whose lower case is an ASCII
letter (U+0130 to `i`, U+212A to `k`).  Every other rune lower-cases to a
non-ASCII rune or to itself and is left as it is. -/
def toLowerRune (c : Char) : Char :=
  if 'A'.toNat ≤ c.toNat ∧ c.toNat ≤ 'Z'.toNat then Char.ofNat (c.toNat + 32)
  else if c.toNat = 0x130 then 'i'
  else if c.toNat = 0x212A then 'k'
  else c

/-- Model of `strings.ToLower`, exact up to `toLowerRune`. -/
def strings.ToLower (s : String) : String :=
  String.mk (s.data.map toLowerRune)

/-- Model of `logrus.ParseLevel`; `none` is the non-nil error. -/
def logrus.ParseLevel (lvl : String) : Option logrus.Level :=
  let l := strings.ToLower lvl
  if l = "panic" then some .PanicLevel
  else if l = "fatal" then some .FatalLevel
  else if l = "error" then some .ErrorLevel
  else if l = "warn" ∨ l = "warning" then some .WarnLevel
  else if l = "info" then some .InfoLevel
  else if l = "debug" then some .DebugLevel
  else if l = "trace" then some .TraceLevel
  else none

/-! ## Configuration model -/

/-- Struct `Rotation`. -/
structure Rotation where
  MaxSize : Int
  MaxBackups : Int
  MaxAge : Int
  Localtime : Bool
  Compress : Bool
  RotateAtStartup : Bool
  deriving DecidableEq, Repr

/-- Struct `Formatter`. -/
structure Formatter where
  TimestampFormat : String
  HideKeys : Bool
  ShowFullLevel : Bool
  TraceCaller : Bool
  CallerFirst : Bool
  FullPathCaller : Bool
  deriving DecidableEq, Repr

/-- Struct `Config`; the two sections are pointers. -/
structure Config where
  Level : String
  Logfile : String
  Rotation : Option Rotation
  Formatter : Option Formatter
  deriving DecidableEq, Repr

/-- Function `DefaultConfig(filename ...string)`. -/
def DefaultConfig (filename : Slice String) : Except Panic Config := do
  let logfile ← if filename ≠ none then filename.index 0 else pure ""
  return {
    Level := "trace"
    Logfile := logfile
    Rotation := some {
      MaxSize := 10
      MaxBackups := 30
      MaxAge := 30
      RotateAtStartup := true
      Localtime := true
      Compress := false }
    Formatter := some {
      HideKeys := true
      TraceCaller := true
      CallerFirst := true
      FullPathCaller := true
      ShowFullLevel := false
      TimestampFormat := "" } }

/-! ## Libraries `nested-logrus-formatter`, `lumberjack`, `logrus`: the objects `New` builds -/

/-- Struct `format.Formatter` of nested-logrus-formatter: the fields `New`
sets.  `CustomCallerFormatter` is a function value, nil (`none`) when unset. -/
structure format.Formatter where
  TimestampFormat : String := ""
  HideKeys : Bool := false
  NoColors : Bool := false
  ShowFullLevel : Bool := false
  CallerFirst : Bool := false
  CustomCallerFormatter : Option (runtime.Frame → Except Panic String) := none

/-- Struct `rotate.Logger` of lumberjack: its configuration fields. -/
structure rotate.Logger where
  Filename : String
  MaxSize : Int
  MaxBackups : Int
  MaxAge : Int
  Compress : Bool
  LocalTime : Bool
  deriving DecidableEq, Repr

/-- The `io.Writer` values `New` handles: the console error stream `os.Stderr`
and a rotating file sink. -/
inductive Writer where
  | Stderr
  | Rotator (r : rotate.Logger)
  deriving DecidableEq, Repr

/-- Model of `io.MultiWriter(writers...)`: the fan-out writer is represented by
the list of destinations it writes to, in order. -/
def io.MultiWriter (writers : List Writer) : List Writer := writers

/-- The `logrus.Formatter` installed on a logger: the `TextFormatter` that
`logrus.New` starts with, or a nested formatter. -/
inductive logrus.Formatter where
  | Text
  | Nested (f : format.Formatter)

/-- Struct `logrus.Logger`: output (the destinations written to), formatter,
caller reporting and threshold level. -/
structure logrus.Logger where
  Out : List Writer
  Formatter : logrus.Formatter
  ReportCaller : Bool
  Level : logrus.Level

/-- Model of `logrus.New()`. -/
def logrus.New : logrus.Logger :=
  { Out := [Writer.Stderr], Formatter := logrus.Formatter.Text, ReportCaller := false,
    Level := logrus.Level.InfoLevel }

/-- Method `SetLevel`. -/
def logrus.Logger.SetLevel (log : logrus.Logger) (level : logrus.Level) : logrus.Logger :=
  { log with Level := level }

/-- Method `SetReportCaller`. -/
def logrus.Logger.SetReportCaller (log : logrus.Logger) (reportCaller : Bool) : logrus.Logger :=
  { log with ReportCaller := reportCaller }

/-- Method `SetFormatter`. -/
def logrus.Logger.SetFormatter (log : logrus.Logger) (formatter : format.Formatter) :
    logrus.Logger :=
  { log with Formatter := logrus.Formatter.Nested formatter }

/-- Method `SetOutput`. -/
def logrus.Logger.SetOutput (log : logrus.Logger) (output : List Writer) : logrus.Logger :=
  { log with Out := output }

/-- Method `IsLevelEnabled`: `logger.level() >= level`. -/
def logrus.Logger.IsLevelEnabled (log : logrus.Logger) (level : logrus.Level) : Bool :=
  decide (log.Level.val ≥ level.val)

/-! ## The package: caller annotation and `New` -/

/-- Struct `Logger`, which embeds `*logrus.Logger`. -/
structure Logger where
  Logger : logrus.Logger

/-- The two statements `s := strings.Split(f.Function, ".")` and
`funcName := s[len(s)-1]` of the closure below. -/
def funcName (function : String) : Except Panic String :=
  let s := strings.Split function '.'
  index s ((s.length : Int) - 1)

/-- The closure `func(f *runtime.Frame) string` that `New` assigns to
`formatter.CustomCallerFormatter`. -/
def callerFormatter (f : runtime.Frame) : Except Panic String := do
  let funcName ← funcName f.Function
  return fmt.Sprintf " (%s:%d %s) ->"
    [fmt.Arg.str (path.Base f.File), fmt.Arg.int f.Line, fmt.Arg.str funcName]

/-- Actions on the rotating sink and on the destination set, in program order.
`Write` is a record written to a destination; it is what the logging methods
of a handle do, and `New` calls none of them. -/
inductive Event where
  | Rotate (r : rotate.Logger) (err : Option String)
  | Append (w : Writer)
  | SetOutput (ws : List Writer)
  | Write (w : Writer)
  deriving DecidableEq, Repr

/-- What a call of `New` leaves behind: the handle it returns and the actions
it performed. -/
structure Outcome where
  handle : Logger
  events : List Event

/-- Function `New(cfg *Config)`, for a non-nil `cfg`.  `rotateErr r` is the
error `r.Rotate()` returns in the file system `New` runs in (`none` is nil). -/
def New (rotateErr : rotate.Logger → Option String) (cfg : Config) :
    Except Panic Outcome := do
  let log := logrus.New
  let level :=
    match logrus.ParseLevel cfg.Level with
    | some level => level
    | none => logrus.Level.TraceLevel
  let log := log.SetLevel level
  let log := log.SetReportCaller (← deref cfg.Formatter).TraceCaller
  let formatter : format.Formatter := {
    TimestampFormat := (← deref cfg.Formatter).TimestampFormat
    ShowFullLevel := (← deref cfg.Formatter).ShowFullLevel
    HideKeys := (← deref cfg.Formatter).HideKeys
    CallerFirst := (← deref cfg.Formatter).CallerFirst }
  let formatter :=
    if !(← deref cfg.Formatter).FullPathCaller then
      { formatter with CustomCallerFormatter := some callerFormatter }
    else formatter
  let writers := [Writer.Stderr]
  let (formatter, writers, events) ←
    if cfg.Logfile ≠ "" then do
      let formatter := { formatter with NoColors := true }
      let rotator : rotate.Logger := {
        Filename := cfg.Logfile
        MaxSize := (← deref cfg.Rotation).MaxSize
        MaxBackups := (← deref cfg.Rotation).MaxBackups
        MaxAge := (← deref cfg.Rotation).MaxAge
        Compress := (← deref cfg.Rotation).Compress
        LocalTime := (← deref cfg.Rotation).Localtime }
      let events :=
        if (← deref cfg.Rotation).RotateAtStartup then
          [Event.Rotate rotator (rotateErr rotator)]
        else []
      let writers := writers ++ [Writer.Rotator rotator]
      let events := events ++ [Event.Append (Writer.Rotator rotator)]
      pure (formatter, writers, events)
    else pure (formatter, writers, [])
  let log := log.SetFormatter formatter
  let log := log.SetOutput (io.MultiWriter writers)
  let events := events ++ [Event.SetOutput (io.MultiWriter writers)]
  return { handle := { Logger := log }, events := events }

/-! ## Vocabulary of the specification -/

/-- Position of a severity in the order trace < debug < info < warn < error <
fatal of the specification; `panic`, which `logrus` also knows, lies above
`fatal`. -/
def severityRank : logrus.Level → Nat
  | .TraceLevel => 0
  | .DebugLevel => 1
  | .InfoLevel => 2
  | .WarnLevel => 3
  | .ErrorLevel => 4
  | .FatalLevel => 5
  | .PanicLevel => 6

/-- Whether an action is a rotation. -/
def Event.isRotate : Event → Bool
  | .Rotate _ _ => true
  | _ => false

/-- Whether an action writes a record. -/
def Event.isWrite : Event → Bool
  | .Write _ => true
  | _ => false

/-- Number of rotations among the actions. -/
def rotationCount (events : List Event) : Nat :=
  (events.filter Event.isRotate).length

/-- A configuration with both sections, no output file and an unknown level name. -/
def consoleConfig : Config :=
  { Level := "verbose"
    Logfile := ""
    Rotation := some
      { MaxSize := 10, MaxBackups := 30, MaxAge := 30, Localtime := true, Compress := false,
        RotateAtStartup := true }
    Formatter := some
      { TimestampFormat := "", HideKeys := true, ShowFullLevel := false, TraceCaller := true,
        CallerFirst := true, FullPathCaller := false } }

/-- A configuration with both sections, an output file and level `warn`. -/
def fileConfig : Config :=
  { Level := "warn"
    Logfile := "app.log"
    Rotation := some
      { MaxSize := 5, MaxBackups := 3, MaxAge := 7, Localtime := false, Compress := true,
        RotateAtStartup := true }
    Formatter := some
      { TimestampFormat := "15:04:05", HideKeys := false, ShowFullLevel := true,
        TraceCaller := false, CallerFirst := false, FullPathCaller := true } }

/-- A file system in which every startup rotation fails. -/
def failingRotate : rotate.Logger → Option String :=
  fun _ => some "rename: permission denied"

/-- A file system in which every startup rotation succeeds. -/
def workingRotate : rotate.Logger → Option String :=
  fun _ => none

/-! ## Lemmas on the standard-library models -/

/-- Shape of a split: the segments end in a separator-free segment `last`, which
is the whole input when it is the only segment and otherwise follows the last
separator of the input. -/
theorem splitChars_shape (sep : Char) (l : List Char) :
    ∃ init last, splitChars sep l = init ++ [last] ∧ sep ∉ last ∧
      ((init = [] ∧ last = l) ∨ (init ≠ [] ∧ ∃ pre, l = pre ++ sep :: last)) := by
  induction l with
  | nil => exact ⟨[], [], by simp [splitChars]⟩
  | cons c cs ih =>
    obtain ⟨init, last, hsp, hno, hcase⟩ := ih
    by_cases hc : c = sep
    · refine ⟨[] :: init, last, by simp [splitChars, hc, hsp], hno, Or.inr ⟨by simp, ?_⟩⟩
      rcases hcase with ⟨_, hl⟩ | ⟨_, pre, hl⟩
      · exact ⟨[], by simp [hc, hl]⟩
      · exact ⟨c :: pre, by simp [hl]⟩
    · cases init with
      | nil =>
        rcases hcase with ⟨_, hl⟩ | ⟨hne, _⟩
        · refine ⟨[], c :: last, ?_, ?_, Or.inl ⟨rfl, by simp [hl]⟩⟩
          · simp [splitChars, hc, hsp]
          · simp only [List.mem_cons, not_or]
            exact ⟨fun h => hc h.symm, hno⟩
        · exact absurd rfl hne
      | cons i0 irest =>
        rcases hcase with ⟨hnil, _⟩ | ⟨_, pre, hl⟩
        · exact absurd hnil (by simp)
        · exact ⟨(c :: i0) :: irest, last, by simp [splitChars, hc, hsp], hno,
            Or.inr ⟨by simp, c :: pre, by simp [hl]⟩⟩

/-- The last segment of a split exists and is the longest separator-free suffix. -/
theorem splitChars_last (sep : Char) (l : List Char) :
    ∃ init last, splitChars sep l = init ++ [last] ∧ sep ∉ last ∧ last <:+ l ∧
      ∀ t, t <:+ l → sep ∉ t → t <:+ last := by
  obtain ⟨init, last, hsp, hno, hcase⟩ := splitChars_shape sep l
  refine ⟨init, last, hsp, hno, ?_, ?_⟩
  · rcases hcase with ⟨_, hl⟩ | ⟨_, pre, hl⟩
    · exact hl ▸ List.suffix_refl _
    · exact ⟨pre ++ [sep], by simp [hl]⟩
  · intro t ht hnt
    rcases hcase with ⟨_, hl⟩ | ⟨_, pre, hl⟩
    · exact hl ▸ ht
    · have hs : (sep :: last) <:+ l := ⟨pre, hl.symm⟩
      rcases List.suffix_or_suffix_of_suffix ht hs with h | h
      · rcases List.suffix_cons_iff.mp h with h | h
        · exact absurd (h ▸ List.mem_cons_self sep last) hnt
        · exact h
      · exact absurd (h.subset (List.mem_cons_self sep last)) hnt

/-- Indexing the last position of a list that ends in `x`. -/
theorem index_last {α : Type} (init : List α) (x : α) :
    index (init ++ [x]) (((init ++ [x]).length : Int) - 1) = .ok x := by
  have h : ((init ++ [x]).length : Int) - 1 = (init.length : Int) := by simp
  rw [h]
  simp [index]

/-- The bare function name is defined, and is the last segment of the split. -/
theorem funcName_eq (function : String) :
    ∃ init last, splitChars '.' function.data = init ++ [last] ∧
      funcName function = .ok (String.mk last) := by
  obtain ⟨init, last, hsp, -⟩ := splitChars_shape '.' function.data
  refine ⟨init, last, hsp, ?_⟩
  have hs : strings.Split function '.' = init.map String.mk ++ [String.mk last] := by
    simp [strings.Split, hsp]
  simp only [funcName, hs]
  exact index_last _ _

/-- Expansion of the format of the caller annotation. -/
theorem Sprintf_caller (file name : String) (line : Int) :
    fmt.Sprintf " (%s:%d %s) ->" [fmt.Arg.str file, fmt.Arg.int line, fmt.Arg.str name]
      = " (" ++ file ++ ":" ++ toString line ++ " " ++ name ++ ") ->" := by
  apply String.ext
  simp [fmt.Sprintf, fmt.expand]

/-! ## Lemmas on `New` -/

/-- Outcome of `New` on a configuration with a formatter section and no output file. -/
theorem New_console (rotateErr : rotate.Logger → Option String) (cfg : Config) (f : Formatter)
    (hf : cfg.Formatter = some f) (hl : cfg.Logfile = "") :
    New rotateErr cfg = .ok
      { handle := { Logger :=
          { Out := [Writer.Stderr]
            Formatter := logrus.Formatter.Nested
              { TimestampFormat := f.TimestampFormat
                HideKeys := f.HideKeys
                NoColors := false
                ShowFullLevel := f.ShowFullLevel
                CallerFirst := f.CallerFirst
                CustomCallerFormatter :=
                  if f.FullPathCaller then none else some callerFormatter }
            ReportCaller := f.TraceCaller
            Level := (logrus.ParseLevel cfg.Level).getD logrus.Level.TraceLevel } }
        events := [Event.SetOutput [Writer.Stderr]] } := by
  cases hp : logrus.ParseLevel cfg.Level <;> cases hc : f.FullPathCaller <;>
    simp [New, deref, hf, hl, hp, hc, bind, Except.bind, pure, Except.pure, logrus.New,
      logrus.Logger.SetLevel, logrus.Logger.SetReportCaller, logrus.Logger.SetFormatter,
      logrus.Logger.SetOutput, io.MultiWriter]

/-- Outcome of `New` on a configuration with both sections and an output file. -/
theorem New_file (rotateErr : rotate.Logger → Option String) (cfg : Config) (f : Formatter)
    (r : Rotation) (hf : cfg.Formatter = some f) (hr : cfg.Rotation = some r)
    (hl : cfg.Logfile ≠ "") :
    New rotateErr cfg = .ok
      { handle := { Logger :=
          { Out := [Writer.Stderr, Writer.Rotator
              { Filename := cfg.Logfile, MaxSize := r.MaxSize, MaxBackups := r.MaxBackups,
                MaxAge := r.MaxAge, Compress := r.Compress, LocalTime := r.Localtime }]
            Formatter := logrus.Formatter.Nested
              { TimestampFormat := f.TimestampFormat
                HideKeys := f.HideKeys
                NoColors := true
                ShowFullLevel := f.ShowFullLevel
                CallerFirst := f.CallerFirst
                CustomCallerFormatter :=
                  if f.FullPathCaller then none else some callerFormatter }
            ReportCaller := f.TraceCaller
            Level := (logrus.ParseLevel cfg.Level).getD logrus.Level.TraceLevel } }
        events :=
          (if r.RotateAtStartup then
            [Event.Rotate
              { Filename := cfg.Logfile, MaxSize := r.MaxSize, MaxBackups := r.MaxBackups,
                MaxAge := r.MaxAge, Compress := r.Compress, LocalTime := r.Localtime }
              (rotateErr
                { Filename := cfg.Logfile, MaxSize := r.MaxSize, MaxBackups := r.MaxBackups,
                  MaxAge := r.MaxAge, Compress := r.Compress, LocalTime := r.Localtime })]
           else []) ++
          [Event.Append (Writer.Rotator
              { Filename := cfg.Logfile, MaxSize := r.MaxSize, MaxBackups := r.MaxBackups,
                MaxAge := r.MaxAge, Compress := r.Compress, LocalTime := r.Localtime }),
           Event.SetOutput [Writer.Stderr, Writer.Rotator
              { Filename := cfg.Logfile, MaxSize := r.MaxSize, MaxBackups := r.MaxBackups,
                MaxAge := r.MaxAge, Compress := r.Compress, LocalTime := r.Localtime }]] } := by
  cases hp : logrus.ParseLevel cfg.Level <;> cases hc : f.FullPathCaller <;>
    cases hs : r.RotateAtStartup <;>
    simp [New, deref, hf, hl, hr, hp, hc, hs, bind, Except.bind, pure, Except.pure, logrus.New,
      logrus.Logger.SetLevel, logrus.Logger.SetReportCaller, logrus.Logger.SetFormatter,
      logrus.Logger.SetOutput, io.MultiWriter]

/-- Without a formatter section `New` dereferences nil. -/
theorem New_nil_formatter (rotateErr : rotate.Logger → Option String) (cfg : Config)
    (hf : cfg.Formatter = none) : New rotateErr cfg = .error Panic.nilDereference := by
  simp [New, deref, hf, bind, Except.bind]

/-- With an output file and no rotation section `New` dereferences nil. -/
theorem New_nil_rotation (rotateErr : rotate.Logger → Option String) (cfg : Config)
    (f : Formatter) (hf : cfg.Formatter = some f) (hr : cfg.Rotation = none)
    (hl : cfg.Logfile ≠ "") : New rotateErr cfg = .error Panic.nilDereference := by
  simp [New, deref, hf, hr, hl, bind, Except.bind, pure, Except.pure]

/-! ## Claims -/

/-- C1 (as stated, refuted): on file "/a/b/pkg/file.go", line 42, function
"pkg.Type.Method" the caller-annotation renderer does not return
" (file.go:42 Method) -> " with a trailing space. -/
theorem callerFormatter_trailing_space_counterexample :
    callerFormatter { File := "/a/b/pkg/file.go", Line := 42, Function := "pkg.Type.Method" }
      ≠ .ok " (file.go:42 Method) -> " := by
  have h : callerFormatter
      { File := "/a/b/pkg/file.go", Line := 42, Function := "pkg.Type.Method" }
      = .ok " (file.go:42 Method) ->" := rfl
  rw [h]
  intro hc
  injection hc with hc
  exact absurd hc (by decide)

/-- C1 (amended): for every call site the caller-annotation renderer returns
exactly: space, '(', base name of the file, ':', the decimal line number,
space, the last dot-separated segment of the function name, ')', space, '->',
with nothing after the arrow; on file "/a/b/pkg/file.go", line 42, function
"pkg.Type.Method" it returns " (file.go:42 Method) ->". -/
theorem callerFormatter_renders :
    (∀ fr : runtime.Frame, ∃ name,
      (strings.Split fr.Function '.').getLast? = some name ∧
      callerFormatter fr = .ok
        (" (" ++ path.Base fr.File ++ ":" ++ toString fr.Line ++ " " ++ name ++ ") ->")) ∧
    callerFormatter { File := "/a/b/pkg/file.go", Line := 42, Function := "pkg.Type.Method" }
      = .ok " (file.go:42 Method) ->" := by
  refine ⟨fun fr => ?_, rfl⟩
  obtain ⟨init, last, hsp, hfn⟩ := funcName_eq fr.Function
  refine ⟨String.mk last, by simp [strings.Split, hsp], ?_⟩
  simp only [callerFormatter, hfn, bind, Except.bind, pure, Except.pure, Sprintf_caller]

/-- C2: `DefaultConfig` called with no path returns level "trace", an empty
output file, rotation (max-size 10, max-backups 30, max-age 30,
rotate-on-startup, local time, no compression) and formatter (hide keys,
trace caller, caller first, full-path caller, short level name, empty
timestamp format); called with a path `p` it returns the same configuration
with output file `p`. -/
theorem DefaultConfig_defaults :
    DefaultConfig none = .ok
      { Level := "trace"
        Logfile := ""
        Rotation := some
          { MaxSize := 10, MaxBackups := 30, MaxAge := 30, Localtime := true,
            Compress := false, RotateAtStartup := true }
        Formatter := some
          { TimestampFormat := "", HideKeys := true, ShowFullLevel := false,
            TraceCaller := true, CallerFirst := true, FullPathCaller := true } } ∧
    ∀ p : String, ∃ c0, DefaultConfig none = .ok c0 ∧
      DefaultConfig (some [p]) = .ok { c0 with Logfile := p } := by
  refine ⟨rfl, fun p => ⟨_, rfl, rfl⟩⟩

/-- C3: when the level name is not recognised, `New` does exactly what it does
on the same configuration with level "trace" (same handle, same actions), the
threshold of the handle is the most verbose level, and the unknown name makes
no call fail: with the sections it reads present, `New` returns a handle. -/
theorem New_unrecognized_level (rotateErr : rotate.Logger → Option String) (cfg : Config)
    (hlevel : logrus.ParseLevel cfg.Level = none) :
    New rotateErr cfg = New rotateErr { cfg with Level := "trace" } ∧
    (∀ f, cfg.Formatter = some f → (cfg.Logfile = "" ∨ cfg.Rotation ≠ none) →
      ∃ o, New rotateErr cfg = .ok o ∧
        o.handle.Logger.Level = logrus.Level.TraceLevel) := by
  have htrace : logrus.ParseLevel "trace" = some logrus.Level.TraceLevel := by decide
  obtain ⟨lv, lf, ro, fo⟩ := cfg
  replace hlevel : logrus.ParseLevel lv = none := hlevel
  constructor
  · show New rotateErr ⟨lv, lf, ro, fo⟩ = New rotateErr ⟨"trace", lf, ro, fo⟩
    cases fo with
    | none =>
      rw [New_nil_formatter _ ⟨lv, lf, ro, none⟩ rfl,
        New_nil_formatter _ ⟨"trace", lf, ro, none⟩ rfl]
    | some f =>
      by_cases hl : lf = ""
      · rw [New_console _ ⟨lv, lf, ro, some f⟩ f rfl hl,
          New_console _ ⟨"trace", lf, ro, some f⟩ f rfl hl]
        simp [hlevel, htrace]
      · cases ro with
        | none =>
          rw [New_nil_rotation _ ⟨lv, lf, none, some f⟩ f rfl rfl hl,
            New_nil_rotation _ ⟨"trace", lf, none, some f⟩ f rfl rfl hl]
        | some r =>
          rw [New_file _ ⟨lv, lf, some r, some f⟩ f r rfl rfl hl,
            New_file _ ⟨"trace", lf, some r, some f⟩ f r rfl rfl hl]
          simp [hlevel, htrace]
  · intro f hf hsec
    by_cases hl : lf = ""
    · exact ⟨_, New_console _ _ f hf hl, by simp [hlevel]⟩
    · cases ro with
      | none =>
        rcases hsec with h | h
        · exact absurd h hl
        · exact absurd rfl h
      | some r => exact ⟨_, New_file _ _ f r hf rfl hl, by simp [hlevel]⟩

/-- C3, at the configuration `consoleConfig` (level name "verbose"). -/
theorem New_unrecognized_level_witness :
    logrus.ParseLevel consoleConfig.Level = none ∧
    New workingRotate consoleConfig
      = New workingRotate { consoleConfig with Level := "trace" } ∧
    (∀ f, consoleConfig.Formatter = some f →
      (consoleConfig.Logfile = "" ∨ consoleConfig.Rotation ≠ none) →
      ∃ o, New workingRotate consoleConfig = .ok o ∧
        o.handle.Logger.Level = logrus.Level.TraceLevel) :=
  ⟨by decide, New_unrecognized_level workingRotate consoleConfig (by decide)⟩

/-- C4: when the level name is a valid severity name, the handle `New` returns
has that severity as its threshold, and a record of severity `s` is enabled
exactly when `s` is at or above the configured severity in the order
trace < debug < info < warn < error < fatal (< panic); `New` returns a handle
whenever the sections it reads are present. -/
theorem New_threshold (rotateErr : rotate.Logger → Option String) (cfg : Config)
    (lvl : logrus.Level) (f : Formatter)
    (hlevel : logrus.ParseLevel cfg.Level = some lvl)
    (hf : cfg.Formatter = some f) (hsec : cfg.Logfile = "" ∨ cfg.Rotation ≠ none) :
    ∃ o, New rotateErr cfg = .ok o ∧ o.handle.Logger.Level = lvl ∧
      ∀ s : logrus.Level,
        o.handle.Logger.IsLevelEnabled s = true ↔ severityRank lvl ≤ severityRank s := by
  have key : ∀ s : logrus.Level,
      decide (lvl.val ≥ s.val) = true ↔ severityRank lvl ≤ severityRank s := by
    intro s
    cases lvl <;> cases s <;> decide
  by_cases hl : cfg.Logfile = ""
  · exact ⟨_, New_console _ _ f hf hl, by simp [hlevel],
      by simpa [logrus.Logger.IsLevelEnabled, hlevel] using key⟩
  · cases hr : cfg.Rotation with
    | none =>
      rcases hsec with h | h
      · exact absurd h hl
      · exact absurd hr h
    | some r => exact ⟨_, New_file _ _ f r hf hr hl, by simp [hlevel],
        by simpa [logrus.Logger.IsLevelEnabled, hlevel] using key⟩

/-- C4, at the configuration `fileConfig` (level name "warn"). -/
theorem New_threshold_witness :
    logrus.ParseLevel fileConfig.Level = some logrus.Level.WarnLevel ∧
    ∃ o, New failingRotate fileConfig = .ok o ∧
      o.handle.Logger.Level = logrus.Level.WarnLevel ∧
      ∀ s : logrus.Level, o.handle.Logger.IsLevelEnabled s = true ↔
        severityRank logrus.Level.WarnLevel ≤ severityRank s :=
  ⟨by decide,
    New_threshold failingRotate fileConfig logrus.Level.WarnLevel _ (by decide) rfl
      (Or.inr (by decide))⟩

/-- C5: the destination set `New` installs is exactly [console error stream]
when the output file is empty, and exactly [console error stream, rotating
file sink] in that order when it is not, where the sink has the output file as
file name and the max-size, max-backups, max-age, compress and local-time
settings of the rotation section. -/
theorem New_destinations (rotateErr : rotate.Logger → Option String) (cfg : Config)
    (f : Formatter) (hf : cfg.Formatter = some f) :
    (cfg.Logfile = "" →
      ∃ o, New rotateErr cfg = .ok o ∧ o.handle.Logger.Out = [Writer.Stderr]) ∧
    (∀ r, cfg.Logfile ≠ "" → cfg.Rotation = some r →
      ∃ o, New rotateErr cfg = .ok o ∧
        o.handle.Logger.Out = [Writer.Stderr, Writer.Rotator
          { Filename := cfg.Logfile, MaxSize := r.MaxSize, MaxBackups := r.MaxBackups,
            MaxAge := r.MaxAge, Compress := r.Compress, LocalTime := r.Localtime }]) :=
  ⟨fun hl => ⟨_, New_console _ _ f hf hl, rfl⟩,
   fun r hl hr => ⟨_, New_file _ _ f r hf hr hl, rfl⟩⟩

/-- C5, at the configurations `consoleConfig` (no output file) and `fileConfig`
(output file "app.log"). -/
theorem New_destinations_witness :
    (∃ o, New workingRotate consoleConfig = .ok o ∧ o.handle.Logger.Out = [Writer.Stderr]) ∧
    ∃ o, New workingRotate fileConfig = .ok o ∧
      o.handle.Logger.Out = [Writer.Stderr, Writer.Rotator
        { Filename := "app.log", MaxSize := 5, MaxBackups := 3, MaxAge := 7, Compress := true,
          LocalTime := false }] :=
  ⟨(New_destinations workingRotate consoleConfig _ rfl).1 rfl,
   (New_destinations workingRotate fileConfig _ rfl).2 _ (by decide) rfl⟩

/-- C6: with an output file and rotate-on-startup set, `New` rotates the sink
exactly once, as its first action: before the sink is appended to the
destination set, before the set is installed, and with no record written; with
rotate-on-startup unset or no output file it never rotates.  The error the
rotation returns has no effect on the handle. -/
theorem New_startup_rotation (rotateErr : rotate.Logger → Option String) (cfg : Config)
    (f : Formatter) (hf : cfg.Formatter = some f) :
    (∀ r, cfg.Logfile ≠ "" → cfg.Rotation = some r → r.RotateAtStartup = true →
      ∃ o sink, New rotateErr cfg = .ok o ∧ rotationCount o.events = 1 ∧
        o.events = [Event.Rotate sink (rotateErr sink), Event.Append (Writer.Rotator sink),
          Event.SetOutput [Writer.Stderr, Writer.Rotator sink]] ∧
        o.handle.Logger.Out = [Writer.Stderr, Writer.Rotator sink] ∧
        ∀ e ∈ o.events, e.isWrite = false) ∧
    (∀ r, cfg.Logfile ≠ "" → cfg.Rotation = some r → r.RotateAtStartup = false →
      ∃ o, New rotateErr cfg = .ok o ∧ rotationCount o.events = 0 ∧
        ∀ e ∈ o.events, e.isWrite = false) ∧
    (cfg.Logfile = "" →
      ∃ o, New rotateErr cfg = .ok o ∧ rotationCount o.events = 0 ∧
        ∀ e ∈ o.events, e.isWrite = false) ∧
    (∀ rotateErr' : rotate.Logger → Option String,
      (New rotateErr' cfg).map Outcome.handle = (New rotateErr cfg).map Outcome.handle) := by
  refine ⟨fun r hl hr hs => ?_, fun r hl hr hs => ?_, fun hl => ?_, fun rotateErr' => ?_⟩
  · refine ⟨_, _, New_file _ _ f r hf hr hl, ?_, ?_, rfl, ?_⟩
    · simp [hs, rotationCount, Event.isRotate]
    · simp [hs]
    · simp [hs, Event.isWrite]
  · refine ⟨_, New_file _ _ f r hf hr hl, ?_, ?_⟩
    · simp [hs, rotationCount, Event.isRotate]
    · simp [hs, Event.isWrite]
  · refine ⟨_, New_console _ _ f hf hl, ?_, ?_⟩
    · simp [rotationCount, Event.isRotate]
    · simp [Event.isWrite]
  · by_cases hl : cfg.Logfile = ""
    · rw [New_console _ _ f hf hl, New_console _ _ f hf hl]
    · cases hr : cfg.Rotation with
      | none => rw [New_nil_rotation _ _ f hf hr hl, New_nil_rotation _ _ f hf hr hl]
      | some r =>
        rw [New_file _ _ f r hf hr hl, New_file _ _ f r hf hr hl]
        rfl

/-- C6, at the configuration `fileConfig` (output file "app.log",
rotate-on-startup set) in a file system where the rotation fails. -/
theorem New_startup_rotation_witness :
    (∃ o sink, New failingRotate fileConfig = .ok o ∧ rotationCount o.events = 1 ∧
      o.events = [Event.Rotate sink (failingRotate sink), Event.Append (Writer.Rotator sink),
        Event.SetOutput [Writer.Stderr, Writer.Rotator sink]] ∧
      o.handle.Logger.Out = [Writer.Stderr, Writer.Rotator sink] ∧
      ∀ e ∈ o.events, e.isWrite = false) ∧
    (New workingRotate fileConfig).map Outcome.handle
      = (New failingRotate fileConfig).map Outcome.handle :=
  ⟨(New_startup_rotation failingRotate fileConfig _ rfl).1 _ (by decide) rfl rfl,
   (New_startup_rotation failingRotate fileConfig _ rfl).2.2.2 workingRotate⟩

/-- C7 (as stated, refuted): on the configuration with level "info", no output
file and both sections absent, `New` fails with a nil dereference and returns
no handle. -/
theorem New_absent_sections_counterexample :
    New workingRotate { Level := "info", Logfile := "", Rotation := none, Formatter := none }
      = .error Panic.nilDereference ∧
    ¬ ∃ o, New workingRotate
      { Level := "info", Logfile := "", Rotation := none, Formatter := none } = .ok o := by
  have h : New workingRotate
      { Level := "info", Logfile := "", Rotation := none, Formatter := none }
      = .error Panic.nilDereference := New_nil_formatter _ _ rfl
  refine ⟨h, ?_⟩
  rintro ⟨o, ho⟩
  rw [h] at ho
  cases ho

/-- C7 (amended): whatever the level and the outcome of the startup rotation,
`New` completes and returns a handle exactly when the formatter section is
present and the rotation section is present or the output file is empty; in
every other case it fails with a nil dereference. -/
theorem New_completes_iff (rotateErr : rotate.Logger → Option String) (cfg : Config) :
    ((∃ o, New rotateErr cfg = .ok o) ↔
      (cfg.Formatter ≠ none ∧ (cfg.Logfile = "" ∨ cfg.Rotation ≠ none))) ∧
    ((∀ o, New rotateErr cfg ≠ .ok o) → New rotateErr cfg = .error Panic.nilDereference) := by
  cases hf : cfg.Formatter with
  | none =>
    have h := New_nil_formatter rotateErr cfg hf
    simp [h]
  | some f =>
    by_cases hl : cfg.Logfile = ""
    · have h := New_console rotateErr cfg f hf hl
      simp [h, hl]
    · cases hr : cfg.Rotation with
      | none =>
        have h := New_nil_rotation rotateErr cfg f hf hr hl
        simp [h, hl]
      | some r =>
        have h := New_file rotateErr cfg f r hf hr hl
        simp [h]

/-- C8 (the code at the failing input): called with an explicitly passed empty
list, a non-nil slice of length zero, `DefaultConfig` fails with an index out of
range, while with the nil list of a call without arguments it returns a
configuration whose output file is empty. -/
theorem DefaultConfig_empty_slice_panics :
    DefaultConfig (some []) = .error Panic.indexOutOfRange ∧
    (DefaultConfig none).map Config.Logfile = .ok "" :=
  ⟨rfl, rfl⟩

/-- C9: `New` installs the custom caller-annotation renderer on the formatter
exactly when caller-full-path is false, and leaves the renderer unset when it
is true; in both cases the timestamp format, show-full-level, hide-keys and
caller-first options of the formatter are those of the configuration. -/
theorem New_formatter (rotateErr : rotate.Logger → Option String) (cfg : Config)
    (f : Formatter) (hf : cfg.Formatter = some f)
    (hsec : cfg.Logfile = "" ∨ cfg.Rotation ≠ none) :
    ∃ o fm, New rotateErr cfg = .ok o ∧
      o.handle.Logger.Formatter = logrus.Formatter.Nested fm ∧
      (f.FullPathCaller = false → fm.CustomCallerFormatter = some callerFormatter) ∧
      (f.FullPathCaller = true → fm.CustomCallerFormatter = none) ∧
      (fm.CustomCallerFormatter.isSome = true ↔ f.FullPathCaller = false) ∧
      fm.TimestampFormat = f.TimestampFormat ∧ fm.ShowFullLevel = f.ShowFullLevel ∧
      fm.HideKeys = f.HideKeys ∧ fm.CallerFirst = f.CallerFirst := by
  by_cases hl : cfg.Logfile = ""
  · refine ⟨_, _, New_console _ _ f hf hl, rfl, ?_⟩
    cases hc : f.FullPathCaller <;> simp
  · cases hr : cfg.Rotation with
    | none =>
      rcases hsec with h | h
      · exact absurd h hl
      · exact absurd hr h
    | some r =>
      refine ⟨_, _, New_file _ _ f r hf hr hl, rfl, ?_⟩
      cases hc : f.FullPathCaller <;> simp

/-- C9, at the configuration `consoleConfig`, whose caller-full-path is false:
the renderer is installed and the four options are those of the configuration. -/
theorem New_formatter_witness :
    ∃ o fm, New workingRotate consoleConfig = .ok o ∧
      o.handle.Logger.Formatter = logrus.Formatter.Nested fm ∧
      fm.CustomCallerFormatter = some callerFormatter ∧
      fm.TimestampFormat = "" ∧ fm.ShowFullLevel = false ∧
      fm.HideKeys = true ∧ fm.CallerFirst = true := by
  obtain ⟨o, fm, hnew, hfm, hset, -, -, hopts⟩ :=
    New_formatter workingRotate consoleConfig _ rfl (Or.inl rfl)
  exact ⟨o, fm, hnew, hfm, hset rfl, hopts⟩

/-- C10: for every function name, the empty one and those ending in a dot
included, the bare function name is defined (the index of the last element of
the split is in range), contains no dot, and is the longest suffix of the
function name without a dot; when the function name has no dot it is the
function name itself. -/
theorem funcName_longest_dotfree_suffix (function : String) :
    strings.Split function '.' ≠ [] ∧
    ∃ name, funcName function = .ok name ∧
      (strings.Split function '.').getLast? = some name ∧
      '.' ∉ name.data ∧
      name.data <:+ function.data ∧
      (∀ t : List Char, t <:+ function.data → '.' ∉ t → t <:+ name.data) ∧
      ('.' ∉ function.data → name = function) := by
  obtain ⟨init, last, hsp, hno, hsuf, hmax⟩ := splitChars_last '.' function.data
  obtain ⟨init', last', hsp', hfn⟩ := funcName_eq function
  have hlast : last' = last := by
    have h := hsp.symm.trans hsp'
    exact ((List.append_inj' h rfl).2 ▸ rfl : [last'] = [last]) |> List.singleton_inj.mp
  subst hlast
  refine ⟨by simp [strings.Split, hsp], String.mk last', hfn, by simp [strings.Split, hsp],
    hno, hsuf, hmax, fun hnd => ?_⟩
  have h1 : function.data <:+ last' := hmax _ (List.suffix_refl _) hnd
  have h2 : last' = function.data :=
    List.IsSuffix.eq_of_length hsuf (Nat.le_antisymm hsuf.length_le h1.length_le)
  rw [h2]

end Logging
